import Mathlib

/-!
Verification of the AutoCaption4Lora caption pipeline.

This file gives a shallow embedding, in Lean, of the pure core of the
repository's caption pipeline and proves properties about it:

* caption formatting (`buildCaption`, from `src/lib/gemini.ts` and
  `src/lib/providers.ts`, identical in both files);
* prompt construction (`promptParts`, identical in both caption generators);
* error classification (`ErrorHandler.fromException`, `src/lib/errors.ts`);
* the two caption generators (`generateCaption` in `src/lib/gemini.ts`,
  `generateCaptionOpenAI` in the provider module — the repository carries two
  revisions of the provider module; the embedded one is the current revision,
  the file that imports `ErrorHandler`/`TimeoutController`, which adds the
  request timeout, the empty-response check and the full fallback chain);
* path validation in the store (`validatePath`, the current revision of
  `src/lib/store.ts`);
* the upload route (`POST /api/upload`), the batch-processing route
  (`POST /api/process`) and the download/archive route (`GET /api/download`).

Strings are modelled through their character lists (`String.data`), JavaScript
`trim` / `replace` / `includes` / `toLowerCase` by explicit character-list
functions restricted to ASCII (all inputs of interest are ASCII).  Network
calls are modelled by an explicit event argument describing the provider's
observable behaviour (response text, HTTP failure, thrown error message), and
the environment by a partial map from variable names to values.
-/

/-- Character classes treated as whitespace by JavaScript `trim` (ASCII part). -/
def wsChar (c : Char) : Bool :=
  c = ' ' || c = '\t' || c = '\n' || c = '\r' || c = Char.ofNat 11 || c = Char.ofNat 12

/-- Characters stripped from the end of a description (regex `[,;]+$`). -/
def stripChar (c : Char) : Bool :=
  c = ',' || c = ';'

/-- Terminal-punctuation characters (regex `[.!?]$`). -/
def punctChar (c : Char) : Bool :=
  c = '.' || c = '!' || c = '?'

/-- Drop the longest suffix of characters satisfying `p`. -/
def dropTrail (p : Char → Bool) (l : List Char) : List Char :=
  (l.reverse.dropWhile p).reverse

/-- JavaScript `String.prototype.trim` on a character list. -/
def trimL (l : List Char) : List Char :=
  dropTrail wsChar (l.dropWhile wsChar)

/-- JavaScript `String.prototype.trim`. -/
def trimS (s : String) : String :=
  ⟨trimL s.data⟩

/-- String concatenation (JavaScript template-literal splicing). -/
def strCat (a b : String) : String :=
  ⟨a.data ++ b.data⟩

/-- Whether `l` ends with terminal punctuation (`desc.match(/[.!?]$/)`). -/
def endsPunct (l : List Char) : Bool :=
  match l.getLast? with
  | some c => punctChar c
  | none => false

/-- Description normalisation inside `buildCaption`: trim, strip trailing
commas/semicolons, append a period when non-empty and not already
punctuation-terminated.  Direct embedding of
`let desc = rawDesc.trim().replace(/[,;]+$/, ""); if (desc && !desc.match(/[.!?]$/)) desc += "."`. -/
def normDesc (l : List Char) : List Char :=
  let d := dropTrail stripChar (trimL l)
  if d.isEmpty then d
  else if endsPunct d then d
  else d ++ ['.']

/-- Shared body of `buildCaption`: all checkpoint branches in the source
return this same expression, the template
`\x7b coreSubject \x7d, \x7b desc \x7d\x7b neg \x7d` followed by `.trim()`. -/
def buildCaptionCore (keyword rawDesc negativeHints : String) : String :=
  ⟨trimL (trimL keyword.data ++ ',' :: ' ' :: normDesc rawDesc.data ++
    (if negativeHints.data.isEmpty then [] else " (neg: ".data ++ negativeHints.data ++ [')']))⟩

/-- Embedding of `buildCaption` (identical in `src/lib/gemini.ts` and
`src/lib/providers.ts`): the checkpoint dispatch has four branches that all
produce the same shape. -/
def buildCaption (keyword rawDesc checkpoint negativeHints : String) : String :=
  if checkpoint = "WAN-2.2" then buildCaptionCore keyword rawDesc negativeHints
  else if checkpoint = "SDXL" then buildCaptionCore keyword rawDesc negativeHints
  else if checkpoint = "FLUX" then buildCaptionCore keyword rawDesc negativeHints
  else buildCaptionCore keyword rawDesc negativeHints

/-- Boolean list-prefix test. -/
def isPrefixL : List Char → List Char → Bool
  | [], _ => true
  | _ :: _, [] => false
  | a :: as, b :: bs => a = b && isPrefixL as bs

/-- Boolean substring test (JavaScript `String.prototype.includes`),
`containsSub needle haystack`. -/
def containsSub (sub : List Char) : List Char → Bool
  | [] => sub.isEmpty
  | c :: rest => isPrefixL sub (c :: rest) || containsSub sub rest

/-- JavaScript `haystack.includes(needle)`. -/
def containsS (s sub : String) : Bool :=
  containsSub sub.data s.data

/-- ASCII lowercasing (JavaScript `toLowerCase` on ASCII input). -/
def lowerS (s : String) : String :=
  ⟨s.data.map Char.toLower⟩

/-- JavaScript `s.startsWith(pre)`. -/
def startsWithS (s pre : String) : Bool :=
  isPrefixL pre.data s.data

/-- Error codes from the `ErrorCode` enum in `src/lib/errors.ts`. -/
inductive ErrorCode where
  | apiKeyMissing
  | apiKeyInvalid
  | apiKeyPlaceholder
  | requestTimeout
  | networkError
  | rateLimitExceeded
  | contentFiltered
  | invalidResponse
  | invalidInput
  | fileTooLarge
  | unsupportedFileType
  | tooManyFiles
  | providerUnavailable
  | modelNotFound
  | unknownError
deriving DecidableEq, Repr

/-- The `AppError` record produced by `ErrorHandler` (the free-text
`details`/`suggestion` fields are omitted; they never influence control
flow). -/
structure AppError where
  code : ErrorCode
  message : String
  statusCode : Nat
deriving DecidableEq, Repr

/-- Condition for the API_KEY_MISSING branch of `ErrorHandler.fromException`:
the message mentions an API key and says it is not set / missing. -/
def akMissingB (msg : String) : Bool :=
  let lower := lowerS msg
  (containsS lower "api key" || containsS lower "api_key") &&
    (containsS lower "not set" || containsS lower "missing")

/-- Condition for the API_KEY_INVALID branch (note: the `"401"` test runs on
the original-case message in the source). -/
def akInvalidB (msg : String) : Bool :=
  let lower := lowerS msg
  (containsS lower "api key" || containsS lower "api_key") &&
    (containsS lower "invalid" || containsS lower "unauthorized" || containsS msg "401")

/-- Condition for the API_KEY_PLACEHOLDER branch. -/
def akPlaceholderB (msg : String) : Bool :=
  let lower := lowerS msg
  (containsS lower "api key" || containsS lower "api_key") && containsS lower "placeholder"

/-- Condition for the REQUEST_TIMEOUT branch (`ETIMEDOUT`/`ECONNABORTED` are
matched case-sensitively in the source). -/
def timeoutCondB (msg : String) : Bool :=
  let lower := lowerS msg
  containsS lower "timeout" || containsS lower "timed out" ||
    containsS msg "ETIMEDOUT" || containsS msg "ECONNABORTED"

/-- Condition for the RATE_LIMIT_EXCEEDED branch. -/
def rateCondB (msg : String) : Bool :=
  let lower := lowerS msg
  containsS lower "429" || containsS lower "rate limit"

/-- Condition for the CONTENT_FILTERED branch. -/
def contentCondB (msg : String) : Bool :=
  let lower := lowerS msg
  containsS lower "prohibited_content" || containsS lower "safety" ||
    containsS lower "blocked" || containsS lower "filtered"

/-- Condition for the NETWORK_ERROR branch. -/
def networkCondB (msg : String) : Bool :=
  let lower := lowerS msg
  containsS lower "network" || containsS lower "enotfound" ||
    containsS lower "econnrefused" || containsS lower "fetch failed"

/-- Condition for the PROVIDER_UNAVAILABLE branch. -/
def unavailCondB (msg : String) : Bool :=
  let lower := lowerS msg
  containsS lower "503" || containsS lower "service unavailable"

/-- Condition for the MODEL_NOT_FOUND branch. -/
def notFoundCondB (msg : String) : Bool :=
  let lower := lowerS msg
  containsS lower "404" || containsS lower "model not found"

/-- Embedding of `ErrorHandler.fromException` from `src/lib/errors.ts` over
the raw error's textual message.  The nested `if` block for API-key errors in
the source falls through to the later rules when the outer test matches but
none of the inner ones do; the flattened guard chain below is equivalent. -/
def fromException (msg : String) (context : String) : AppError :=
  if akMissingB msg then ⟨.apiKeyMissing, "API key is not configured", 500⟩
  else if akInvalidB msg then ⟨.apiKeyInvalid, "API key is invalid or unauthorized", 401⟩
  else if akPlaceholderB msg then ⟨.apiKeyPlaceholder, "API key is set to placeholder value", 500⟩
  else if timeoutCondB msg then ⟨.requestTimeout, "Request timed out", 504⟩
  else if rateCondB msg then ⟨.rateLimitExceeded, "Rate limit exceeded", 429⟩
  else if contentCondB msg then ⟨.contentFiltered, "Content was filtered by safety settings", 400⟩
  else if networkCondB msg then ⟨.networkError, "Network connection error", 503⟩
  else if unavailCondB msg then ⟨.providerUnavailable, "AI provider is temporarily unavailable", 503⟩
  else if notFoundCondB msg then ⟨.modelNotFound, "Model not found", 404⟩
  else ⟨.unknownError, "An unexpected error occurred", 500⟩

/-- The `CaptionOptions` record shared by both caption generators. -/
structure CaptionOptions where
  keyword : String
  captionGuidance : String
  checkpoint : String
  negativeHints : String
  captionLength : String
  strictFocus : Bool
deriving DecidableEq, Repr

/-- Own properties of the `lengthMap` object literal: the fixed three-entry
length table of the prompt builder. -/
def lengthMapLookup (s : String) : Option String :=
  if s = "Short" then some "Keep the description concise (1-2 sentences)."
  else if s = "Medium" then some "Provide a moderate description (2-4 sentences)."
  else if s = "Long" then some "Provide a detailed, comprehensive description."
  else none

/-- The Medium entry of the length table. -/
def mediumInstruction : String :=
  "Provide a moderate description (2-4 sentences)."

/-- Property keys that a plain object literal inherits from
`Object.prototype`.  A JavaScript bracket lookup `lengthMap[k]` with any of
these keys yields the inherited value — a function, or `Object.prototype`
itself for `__proto__` — which is truthy, so an `|| default` guard after such
a lookup is not taken. -/
def objectPrototypeKeys : List String :=
  ["constructor", "hasOwnProperty", "isPrototypeOf", "propertyIsEnumerable",
   "toLocaleString", "toString", "valueOf", "__defineGetter__",
   "__defineSetter__", "__lookupGetter__", "__lookupSetter__", "__proto__"]

/-- One entry of the prompt-parts array: an ordinary string, or — in the
length slot only — a truthy non-string value inherited from
`Object.prototype` (pushed when `captionLength` is an inherited property
key; its later stringification by `join(" ")` is a function/object dump, not
a length instruction, and is left opaque here). -/
inductive PromptPart where
  | str (s : String)
  | inheritedLengthValue (key : String)
deriving DecidableEq, Repr

/-- JavaScript semantics of `lengthMap[options.captionLength] || lengthMap.Medium`:
an own key yields its instruction; a key inherited from `Object.prototype`
yields the inherited truthy value, so the `||` default is NOT substituted;
any other key yields `undefined` (falsy) and falls back to the Medium
entry. -/
def lengthChoice (captionLength : String) : PromptPart :=
  match lengthMapLookup captionLength with
  | some v => .str v
  | none =>
    if objectPrototypeKeys.contains captionLength then .inheritedLengthValue captionLength
    else .str mediumInstruction

/-- Prompt-part construction, identical in `generateCaption`
(`src/lib/gemini.ts`) and `generateCaptionOpenAI` (provider module). -/
def promptParts (o : CaptionOptions) : List PromptPart :=
  .str (if o.captionGuidance = "" then "Describe this image in detail for training a LoRA model."
        else o.captionGuidance) ::
  lengthChoice o.captionLength ::
  ((if o.negativeHints = "" then []
    else [PromptPart.str (strCat "Avoid mentioning: " o.negativeHints)]) ++
   (if o.strictFocus then
      [PromptPart.str "Focus only on the main subject, ignoring background details."] else []))

/-- Observable behaviour of one Gemini API call, as seen by `generateCaption`
in `src/lib/gemini.ts`: the call (including the timeout race) either throws
with a message, or produces a response whose `text()` either returns a string
or itself throws with a message. -/
inductive GeminiEvent where
  | respText (t : String)
  | respBlocked (msg : String)
  | callFail (msg : String)
deriving DecidableEq, Repr

/-- Fallback caption chain in the `catch` block of `generateCaption`
(`src/lib/gemini.ts`): classify the thrown message, then map the code to a
user-facing caption embedding the keyword. -/
def geminiFallback (keyword msg : String) : String :=
  match (fromException msg "Gemini API").code with
  | .contentFiltered => strCat keyword ", content filtered by safety settings"
  | .rateLimitExceeded => strCat keyword ", rate limit exceeded, please retry"
  | .requestTimeout => strCat keyword ", request timed out after 30s"
  | .networkError => strCat keyword ", network error, check connection"
  | .apiKeyInvalid => strCat keyword ", API key invalid or unauthorized"
  | _ => strCat keyword ", image description unavailable"

/-- Embedding of `generateCaption` from `src/lib/gemini.ts`.  The whole body
is inside one `try`/`catch`, so the function always returns a string:
* a successful `text()` is trimmed and passed to `buildCaption`;
* a `text()` throw mentioning `PROHIBITED_CONTENT` / `SAFETY` / `blocked`
  (matched case-sensitively on the original message) substitutes the neutral
  fallback description; any other `text()` throw is re-thrown and lands in
  the outer `catch`;
* a throw of the call itself (timeout included) lands in the outer `catch`,
  which classifies it and returns a fallback caption. -/
def generateCaption (o : CaptionOptions) (ev : GeminiEvent) : String :=
  match ev with
  | .respText t => buildCaption o.keyword (trimS t) o.checkpoint o.negativeHints
  | .respBlocked m =>
      if containsS m "PROHIBITED_CONTENT" || containsS m "SAFETY" || containsS m "blocked" then
        buildCaption o.keyword "A detailed image suitable for LoRA training" o.checkpoint o.negativeHints
      else geminiFallback o.keyword m
  | .callFail m => geminiFallback o.keyword m

/-- Provider records from `LLM_PROVIDERS` in the provider module. -/
structure LLMProvider where
  id : String
  name : String
  requiresApiKey : Bool
  envVar : String
  baseUrl : Option String
  models : List String
deriving DecidableEq, Repr

/-- The static provider registry `LLM_PROVIDERS` (model lists abridged to the
identifiers; exact entries as in the source).  Like any JavaScript object
literal, the source registry inherits `Object.prototype` keys
(`LLM_PROVIDERS["constructor"]` is truthy), a corner this closed map does not
reproduce; the theorems that rely on a provider being found are guarded by a
registered-provider hypothesis, and the unknown-provider counterexample uses
an identifier outside the prototype keys. -/
def LLM_PROVIDERS (pid : String) : Option LLMProvider :=
  if pid = "gemini" then
    some ⟨"gemini", "Google Gemini", true, "GEMINI_API_KEY", none, []⟩
  else if pid = "openai" then
    some ⟨"openai", "OpenAI", true, "OPENAI_API_KEY", some "https://api.openai.com/v1",
      ["gpt-4-vision-preview", "gpt-4-turbo", "gpt-4o", "gpt-4o-mini"]⟩
  else if pid = "openrouter" then
    some ⟨"openrouter", "OpenRouter", true, "OPENROUTER_API_KEY", some "https://openrouter.ai/api/v1",
      ["anthropic/claude-3.5-sonnet", "anthropic/claude-3-opus", "openai/gpt-4-vision-preview",
       "google/gemini-pro-vision", "meta-llama/llama-3.2-90b-vision"]⟩
  else if pid = "together" then
    some ⟨"together", "Together AI", true, "TOGETHER_API_KEY", some "https://api.together.xyz/v1",
      ["meta-llama/Llama-3.2-90B-Vision-Instruct-Turbo", "meta-llama/Llama-3.2-11B-Vision-Instruct-Turbo"]⟩
  else if pid = "groq" then
    some ⟨"groq", "Groq", true, "GROQ_API_KEY", some "https://api.groq.com/openai/v1",
      ["llama-3.2-90b-vision-preview", "llama-3.2-11b-vision-preview"]⟩
  else if pid = "ollama" then
    some ⟨"ollama", "Ollama (Local)", false, "OLLAMA_BASE_URL", some "http://localhost:11434/v1",
      ["llava:latest", "llava:13b", "llava:34b", "bakllava:latest"]⟩
  else none

/-- Observable behaviour of one OpenAI-compatible chat-completion call: the
fetch (with abort-signal timeout) either throws with a message, or yields an
HTTP response with an `ok` flag, status, error-body text and the extracted
`choices[0]?.message?.content` field (absent fields collapse to `none`). -/
inductive OpenAIEvent where
  | fetchFail (msg : String)
  | httpResp (ok : Bool) (status : Nat) (body : String) (content : Option String)
deriving DecidableEq, Repr

/-- Fallback caption chain in the `catch` block of `generateCaptionOpenAI`
(current provider-module revision). -/
def openAIFallback (keyword providerName msg : String) : String :=
  match (fromException msg (strCat providerName " API")).code with
  | .rateLimitExceeded => strCat keyword ", rate limit exceeded, please retry"
  | .requestTimeout => strCat keyword ", request timed out after 30s"
  | .networkError => strCat keyword ", network error, check connection"
  | .apiKeyInvalid => strCat keyword ", API key invalid or unauthorized"
  | .apiKeyMissing => strCat keyword ", API key not configured"
  | .contentFiltered => strCat keyword ", content filtered by safety settings"
  | .providerUnavailable => strCat keyword ", provider temporarily unavailable"
  | _ => strCat keyword ", image description unavailable"

/-- Truthiness of `process.env[cfg.envVar]` (set and non-empty). -/
def envHas (env : String → Option String) (v : String) : Bool :=
  match env v with
  | some s => s ≠ ""
  | none => false

/-- Extraction `data.choices[0]?.message?.content?.trim() || ""`: a missing
field or an all-whitespace string collapses to the empty string. -/
def extractRaw (content : Option String) : String :=
  match content with
  | some s => trimS s
  | none => ""

/-- Embedding of `generateCaptionOpenAI` (current provider-module revision).
A result of `.error m` models an exception raised to the caller.  The unknown
provider and missing-credential throws sit before the `try` block in the
source, so they escape; everything after that point is inside the
`try`/`catch` and is converted to a fallback caption: a non-`ok` HTTP
response throws `API request failed: \x7b status \x7d - \x7b body \x7d`,
an empty extracted text throws `Empty response from API`, both caught by the
`catch`; otherwise the trimmed text goes through `buildCaption`. -/
def generateCaptionOpenAI (env : String → Option String) (o : CaptionOptions)
    (provider modelName : String) (ev : OpenAIEvent) : Except String String :=
  match LLM_PROVIDERS provider with
  | none => .error (strCat "Unknown provider: " provider)
  | some cfg =>
    if cfg.requiresApiKey && !envHas env cfg.envVar then .error (strCat cfg.envVar " is not set")
    else .ok (match ev with
      | .fetchFail m => openAIFallback o.keyword cfg.name m
      | .httpResp ok status body content =>
        if !ok then
          openAIFallback o.keyword cfg.name
            (strCat "API request failed: " (strCat (Nat.repr status) (strCat " - " body)))
        else
          if extractRaw content = "" then openAIFallback o.keyword cfg.name "Empty response from API"
          else buildCaption o.keyword (extractRaw content) o.checkpoint o.negativeHints)

/-! Filesystem-store path handling (current revision of `src/lib/store.ts`).
Absolute directories are modelled as lists of path segments; `renderL`
produces the POSIX string form used by the `startsWith` containment check. -/
/-- Split a character list at `/` separators. -/
def splitSlash : List Char → List (List Char)
  | [] => [[]]
  | c :: rest =>
    let r := splitSlash rest
    if c = '/' then [] :: r
    else match r with
      | [] => [[c]]
      | h :: t => (c :: h) :: t

/-- Node `path.basename` (POSIX, relevant cases): the last non-empty
`/`-separated component, or the empty string when there is none. -/
def basenameS (s : String) : String :=
  ⟨(((splitSlash s.data).filter (fun seg => !seg.isEmpty)).getLast?).getD []⟩

/-- Render an absolute path from its segments (`[] ↦ "/"`), as produced by
Node `path.resolve` on the joined path. -/
def renderL (segs : List String) : List Char :=
  match segs with
  | [] => ['/']
  | _ => segs.foldl (fun acc s => acc ++ '/' :: s.data) []

/-- Node `path.join(base, b)` followed by `path.resolve`, for a single
sanitized component `b` (which contains no separator by construction):
`"se"` and `"."` leave the directory unchanged, `".."` steps to the parent,
anything else descends. -/
def joinSegs (base : List String) (b : String) : List String :=
  if b = "" || b = "." then base
  else if b = ".." then base.dropLast
  else base ++ [b]

/-- Embedding of `validatePath` from the current `src/lib/store.ts`:
`safePath = join(baseDir, basename(filename))`; throw iff the resolved path
does not start with the resolved base directory. -/
def validatePath (base : List String) (filename : String) : Except String (List String) :=
  if isPrefixL (renderL base) (renderL (joinSegs base (basenameS filename))) then
    .ok (joinSegs base (basenameS filename))
  else .error "Invalid file path: directory traversal detected"

/-- One run of the write loop of `Store.setUploadedImages`: returns the list
of filesystem writes performed (target path and content) and the error
raised, if any.  Each entry is validated before its write; an exception
aborts the loop. -/
def setUploadedImagesRun (base : List String) (images : List (String × Nat)) :
    List (List String × Nat) × Option String :=
  match images with
  | [] => ([], none)
  | (fn, buf) :: rest =>
    match validatePath base fn with
    | .error e => ([], some e)
    | .ok p =>
      let (ws, e) := setUploadedImagesRun base rest
      ((p, buf) :: ws, e)

/-! Upload route (`POST /api/upload`, current revision).  Files carry a name,
a MIME type, a size and opaque content (modelled as `Nat`).  The rate-limit
middleware and the multipart decoding sit outside the embedded logic. -/
structure UploadFile where
  name : String
  ftype : String
  size : Nat
  content : Nat
deriving DecidableEq, Repr

/-- `MAX_FILE_SIZE = 10 * 1024 * 1024`. -/
def maxFileSize : Nat := 10485760

/-- `MAX_FILES = 100`. -/
def maxFiles : Nat := 100

/-- `ALLOWED_EXTENSIONS`. -/
def allowedExtensions : List String := [".jpg", ".jpeg", ".png", ".webp"]

/-- Node `path.extname` on a bare filename (no separators): the suffix from
the last `.`, unless that dot is the leading character or the name is `".."`. -/
def extnameS (s : String) : String :=
  if s = ".." then ""
  else
    let pre := s.data.reverse.takeWhile (fun c => c ≠ '.')
    if pre.length = s.data.length then ""
    else if s.data.length = pre.length + 1 then ""
    else ⟨'.' :: pre.reverse⟩

/-- Character filter of `replace(/[^a-zA-Z0-9._-]/g, "_")`. -/
def sanitizeChar (c : Char) : Char :=
  if (('a' ≤ c && c ≤ 'z') || ('A' ≤ c && c ≤ 'Z') || ('0' ≤ c && c ≤ '9') ||
      c = '.' || c = '_' || c = '-') then c else '_'

/-- `path.basename(file.name).replace(/[^a-zA-Z0-9._-]/g, "_")`. -/
def sanitizedName (name : String) : String :=
  ⟨(basenameS name).data.map sanitizeChar⟩

/-- Insertion-ordered map membership (`Map.has`). -/
def hasKey (m : List (String × Nat)) (k : String) : Bool :=
  m.any (fun p => p.1 = k)

/-- Insertion-ordered map update (`Map.set`): replaces in place or appends. -/
def setKey (m : List (String × Nat)) (k : String) (v : Nat) : List (String × Nat) :=
  if hasKey m k then m.map (fun p => if p.1 = k then (k, v) else p)
  else m ++ [(k, v)]

/-- Duplicate-name counter loop: try `base_1ext`, `base_2ext`, … until a key
is free.  The fuel bounds the search; the loop in the source terminates
because the map is finite and candidate keys for distinct counters are
distinct. -/
def freshKeyAux (m : List (String × Nat)) (baseName ext : List Char) :
    Nat → Nat → String
  | 0, c => ⟨baseName ++ '_' :: (Nat.repr c).data ++ ext⟩
  | fuel + 1, c =>
    let k : String := ⟨baseName ++ '_' :: (Nat.repr c).data ++ ext⟩
    if hasKey m k then freshKeyAux m baseName ext fuel (c + 1) else k

/-- Key chosen for a sanitized filename: the name itself when free, else the
first free countered variant. -/
def chooseKey (m : List (String × Nat)) (san : String) : String :=
  if hasKey m san then
    let ext := extnameS san
    let baseName := san.data.take (san.data.length - ext.data.length)
    freshKeyAux m baseName ext.data (m.length + 1) 1
  else san

/-- The per-file loop of the upload route: skip non-image MIME types, reject
oversized files and unsupported extensions, otherwise insert under a
duplicate-safe key. -/
def buildUploadMap : List UploadFile → List (String × Nat) →
    Except (ErrorCode × Nat) (List (String × Nat))
  | [], m => .ok m
  | f :: rest, m =>
    if !startsWithS f.ftype "image/" then buildUploadMap rest m
    else if f.size > maxFileSize then .error (.fileTooLarge, 400)
    else if !(allowedExtensions.contains (lowerS (extnameS f.name))) then
      .error (.unsupportedFileType, 400)
    else buildUploadMap rest (setKey m (chooseKey m (sanitizedName f.name)) f.content)

/-- Result record persisted by the batch processor. -/
structure PResult where
  filename : String
  caption : String
  imageData : Nat
deriving DecidableEq, Repr

/-- Store state touched by the embedded routes. -/
structure StoreState where
  uploaded : List (String × Nat)
  processed : List PResult
  logs : List String
deriving DecidableEq, Repr

/-- Responses of the upload route that the embedding distinguishes:
a structured error (code and HTTP status) or `\x7b success: true, count \x7d`. -/
inductive UploadResponse where
  | errorResp (code : ErrorCode) (status : Nat)
  | success (count : Nat)
deriving DecidableEq, Repr

/-- Whether an upload response is the success shape. -/
def UploadResponse.isSuccess : UploadResponse → Bool
  | .success _ => true
  | .errorResp _ _ => false

/-- Embedding of the upload route `POST` handler (validation and store
update; the free-text message fields of the error responses are elided).
Checks run in source order: empty request, file count, per-file loop, empty
result map; only the success path mutates the store. -/
def uploadPOST (files : List UploadFile) (st : StoreState) : UploadResponse × StoreState :=
  if files.length = 0 then (.errorResp .invalidInput 400, st)
  else if files.length > maxFiles then (.errorResp .tooManyFiles 400, st)
  else
    match buildUploadMap files [] with
    | .error (code, status) => (.errorResp code status, st)
    | .ok m =>
      if m.length = 0 then (.errorResp .invalidInput 400, st)
      else (.success m.length,
        { st with uploaded := m,
                  logs := st.logs ++ [strCat "Uploaded " (strCat (Nat.repr m.length) " images")] })

/-! Batch-processing route (`POST /api/process`, loop of lines 123-203) and
download route (`GET /api/download`). -/
/-- `idx.toString().padStart(5, "0")`. -/
def padStart5 (n : Nat) : String :=
  let s := Nat.repr n
  if 5 ≤ s.length then s else ⟨List.replicate (5 - s.length) '0' ++ s.data⟩

/-- Output filename `\x7b prefix \x7d_\x7b idx:05d \x7d.jpg`. -/
def newFilename (prefixStr : String) (idx : Nat) : String :=
  strCat prefixStr (strCat "_" (strCat (padStart5 idx) ".jpg"))

/-- The substring heuristic deciding whether a returned caption is tallied as
an error for the run summary. -/
def captionIndicatesError (c : String) : Bool :=
  containsS c "unavailable" || containsS c "filtered" || containsS c "rate limit"

/-- One iteration of the batch loop: on a returned caption push it and tally
by the substring heuristic; on a raised error push the
`\x7b keyword \x7d, processing failed` fallback and tally an error.  The
returned flag is `true` when the iteration counts as an error. -/
def processStep (prefixStr keyword : String) (idx : Nat) (img : Nat)
    (gen : Except String String) : PResult × Bool :=
  match gen with
  | .ok caption => (⟨newFilename prefixStr idx, caption, img⟩, captionIndicatesError caption)
  | .error _ => (⟨newFilename prefixStr idx, strCat keyword ", processing failed", img⟩, true)

/-- The batch loop over the uploaded images (insertion order, `idx` starting
at 1), accumulating results and the success/error tallies. -/
def processLoop (prefixStr keyword : String) (gen : Nat → Except String String) :
    List (String × Nat) → Nat → List PResult × Nat × Nat
  | [], _ => ([], 0, 0)
  | (_, img) :: rest, idx =>
    let (r, isErr) := processStep prefixStr keyword idx img (gen idx)
    let (rs, s, e) := processLoop prefixStr keyword gen rest (idx + 1)
    (r :: rs, (if isErr then s else s + 1), (if isErr then e + 1 else e))

/-- Outcome of the processing route: results persisted to the store, the two
tallies, and the `count` field of the JSON `\x7b status: "done", count \x7d`
response. -/
structure ProcessOut where
  results : List PResult
  successCount : Nat
  errorCount : Nat
  count : Nat
deriving DecidableEq, Repr

/-- Per-image generator dispatch of the `POST /api/process` handler: the
Gemini generator when `provider = "gemini"` (it always returns a caption),
the OpenAI-compatible generator otherwise (its pre-`try` throws surface as
`.error` and are caught by the loop's `catch`).  The per-image provider
behaviour is supplied by the event streams `gev`/`oev`. -/
def processGen (env : String → Option String) (provider modelName : String)
    (o : CaptionOptions) (gev : Nat → GeminiEvent) (oev : Nat → OpenAIEvent) :
    Nat → Except String String := fun i =>
  if provider = "gemini" then .ok (generateCaption o (gev i))
  else generateCaptionOpenAI env o provider modelName (oev i)

/-- Embedding of the batch-processing section of the `POST /api/process`
handler: the loop over the uploaded images aggregated into the route outcome
(results list, the two tallies, and the response `count` taken from
`processedResults.length`). -/
def processPOSTrun (env : String → Option String) (provider modelName prefixStr : String)
    (o : CaptionOptions) (images : List (String × Nat))
    (gev : Nat → GeminiEvent) (oev : Nat → OpenAIEvent) : ProcessOut :=
  ⟨(processLoop prefixStr o.keyword (processGen env provider modelName o gev oev) images 1).1,
   (processLoop prefixStr o.keyword (processGen env provider modelName o gev oev) images 1).2.1,
   (processLoop prefixStr o.keyword (processGen env provider modelName o gev oev) images 1).2.2,
   (processLoop prefixStr o.keyword (processGen env provider modelName o gev oev) images 1).1.length⟩

/-- Archive entries appended by the download route. -/
inductive EntryData where
  | image (d : Nat)
  | text (s : String)
deriving DecidableEq, Repr

/-- One zip entry: name and payload. -/
structure ArchiveEntry where
  name : String
  data : EntryData
deriving DecidableEq, Repr

/-- `filename.replace(/\.[^.]+$/, ".txt")`: replace a final dot-extension
(at least one non-dot character after the last dot) by `.txt`; otherwise the
name is unchanged. -/
def txtName (fn : String) : String :=
  let pre := fn.data.reverse.takeWhile (fun c => c ≠ '.')
  if pre.length = fn.data.length then fn
  else if pre.length = 0 then fn
  else ⟨fn.data.take (fn.data.length - pre.length - 1) ++ ".txt".data⟩

/-- Entries streamed into the archive: per result, the image entry followed
by the sibling caption text entry. -/
def archiveEntriesOf (rs : List PResult) : List ArchiveEntry :=
  rs.flatMap (fun r => [⟨r.filename, .image r.imageData⟩, ⟨txtName r.filename, .text r.caption⟩])

/-- Embedding of the `GET /api/download` handler: a 400 error when nothing
was processed, otherwise the streamed entry list. -/
def downloadGET (rs : List PResult) : Except (ErrorCode × Nat) (List ArchiveEntry) :=
  if rs.length = 0 then .error (.invalidInput, 400)
  else .ok (archiveEntriesOf rs)

/-- Number of image entries in an archive. -/
def countImages (entries : List ArchiveEntry) : Nat :=
  (entries.filter (fun e => match e.data with | .image _ => true | .text _ => false)).length

/-- Number of caption text entries in an archive. -/
def countTexts (entries : List ArchiveEntry) : Nat :=
  (entries.filter (fun e => match e.data with | .image _ => false | .text _ => true)).length

/-- Validity of one uploaded file per the upload route's checks: image MIME
type, size within bound, allowed (lowercased) extension. -/
def validFile (f : UploadFile) : Bool :=
  startsWithS f.ftype "image/" && f.size ≤ maxFileSize &&
    allowedExtensions.contains (lowerS (extnameS f.name))

/-- Results persisted by one batch-processing run. -/
def processedOf (env : String → Option String) (provider modelName prefixStr : String)
    (o : CaptionOptions) (images : List (String × Nat))
    (gev : Nat → GeminiEvent) (oev : Nat → OpenAIEvent) : List PResult :=
  (processPOSTrun env provider modelName prefixStr o images gev oev).results

/-- A batch of 100 distinct valid image files. -/
def files100 : List UploadFile :=
  (List.range 100).map (fun i => ⟨strCat "img" (strCat (Nat.repr i) ".png"), "image/png", 3, i⟩)

/-- A batch of 101 files. -/
def files101 : List UploadFile :=
  (List.range 101).map (fun i => ⟨strCat "img" (strCat (Nat.repr i) ".png"), "image/png", 3, i⟩)

theorem buildCaption_eq_core (k d cp n : String) :
    buildCaption k d cp n = buildCaptionCore k d n := by
  unfold buildCaption
  repeat' split
  all_goals rfl

-- Small sanity examples for the string machinery.
example : trimS "  a b  " = "a b" := by decide

example : containsS "rate limit hit" "rate limit" = true := by decide

example : containsS "RATE" "rate" = false := by decide

example : lowerS "RaTe LiMiT" = "rate limit" := by decide

example : buildCaptionCore "foo" "a cat sitting" "blurry" = "foo, a cat sitting. (neg: blurry)" := by decide

example : buildCaptionCore "foo" "" "" = "foo," := by decide

example : (fromException "HTTP 429 Too Many Requests" "x").code = .rateLimitExceeded := by decide

example : (fromException "Request timed out" "x").code = .requestTimeout := by decide

example : (fromException "some weird failure" "x").code = .unknownError := by decide

-- Sanity examples for the generators (unused `modelName` is part of the
-- source signature and kept for shape).
example :
    generateCaption ⟨"foo", "", "SDXL", "", "Medium", false⟩ (.callFail "429 quota") =
      "foo, rate limit exceeded, please retry" := rfl

example :
    generateCaptionOpenAI (fun _ => none) ⟨"foo", "", "SDXL", "", "Medium", false⟩
      "bogus" "m" (.fetchFail "x") = .error "Unknown provider: bogus" := rfl

example :
    generateCaptionOpenAI (fun _ => some "k") ⟨"foo", "", "SDXL", "", "Medium", false⟩
      "openai" "gpt-4o" (.httpResp true 200 "" (some "a dog")) =
      .ok "foo, a dog." := rfl

example :
    generateCaptionOpenAI (fun _ => some "k") ⟨"foo", "", "SDXL", "", "Medium", false⟩
      "openai" "gpt-4o" (.httpResp true 200 "" (some "  ")) =
      .ok "foo, image description unavailable" := rfl

example :
    generateCaptionOpenAI (fun _ => some "k") ⟨"foo", "", "SDXL", "", "Medium", false⟩
      "openai" "gpt-4o" (.httpResp false 429 "too many" none) =
      .ok "foo, rate limit exceeded, please retry" := rfl

/-! Helper lemmas about `dropWhile`, `dropTrail` and `trimL`. -/
theorem mem_of_getLast?H {l : List Char} {a : Char} (h : l.getLast? = some a) : a ∈ l := by
  induction l with
  | nil => simp at h
  | cons b t ih =>
    cases t with
    | nil => simp at h; simp [h]
    | cons c u =>
      rw [List.getLast?_cons_cons] at h
      exact List.mem_cons_of_mem b (ih h)

theorem head?_dropWhile_neg (p : Char → Bool) (l : List Char) {a : Char}
    (h : (l.dropWhile p).head? = some a) : p a = false := by
  induction l with
  | nil => simp at h
  | cons b t ih =>
    by_cases hb : p b
    · rw [List.dropWhile_cons, if_pos hb] at h
      exact ih h
    · rw [List.dropWhile_cons, if_neg hb] at h
      simp at h
      subst h
      exact Bool.eq_false_iff.mpr hb

theorem mem_dropWhile_of_neg (p : Char → Bool) {l : List Char} {c : Char}
    (hm : c ∈ l) (hc : p c = false) : c ∈ l.dropWhile p := by
  induction l with
  | nil => simp at hm
  | cons b t ih =>
    by_cases hb : p b
    · rw [List.dropWhile_cons, if_pos hb]
      rcases List.mem_cons.mp hm with h | h
      · subst h; rw [hc] at hb; simp at hb
      · exact ih h
    · rw [List.dropWhile_cons, if_neg hb]
      exact hm

theorem dropWhile_eq_self_of_head (p : Char → Bool) {l : List Char} {a : Char}
    (h : l.head? = some a) (ha : p a = false) : l.dropWhile p = l := by
  cases l with
  | nil => rfl
  | cons b t =>
    simp at h
    subst h
    rw [List.dropWhile_cons, if_neg (by simp [ha])]

theorem getLast?_dropWhile (p : Char → Bool) (l : List Char)
    (h : l.dropWhile p ≠ []) : (l.dropWhile p).getLast? = l.getLast? := by
  induction l with
  | nil => simp at h
  | cons b t ih =>
    by_cases hb : p b
    · rw [List.dropWhile_cons, if_pos hb] at h ⊢
      have ht : t ≠ [] := by
        intro he
        subst he
        simp at h
      rw [ih h]
      cases t with
      | nil => exact absurd rfl ht
      | cons c u => rw [List.getLast?_cons_cons]
    · rw [List.dropWhile_cons, if_neg hb]

theorem dropTrail_eq_self (p : Char → Bool) {l : List Char} {c : Char}
    (h : l.getLast? = some c) (hc : p c = false) : dropTrail p l = l := by
  unfold dropTrail
  have hr : l.reverse.head? = some c := by rw [List.head?_reverse, h]
  rw [dropWhile_eq_self_of_head p hr hc, List.reverse_reverse]

theorem getLast?_dropTrail_neg (p : Char → Bool) (l : List Char) {a : Char}
    (h : (dropTrail p l).getLast? = some a) : p a = false := by
  unfold dropTrail at h
  rw [List.getLast?_reverse] at h
  exact head?_dropWhile_neg p l.reverse h

theorem mem_dropTrail_of_neg (p : Char → Bool) {l : List Char} {c : Char}
    (hm : c ∈ l) (hc : p c = false) : c ∈ dropTrail p l := by
  unfold dropTrail
  rw [List.mem_reverse]
  exact mem_dropWhile_of_neg p (List.mem_reverse.mpr hm) hc

theorem head?_dropTrail (p : Char → Bool) (l : List Char)
    (h : dropTrail p l ≠ []) : (dropTrail p l).head? = l.head? := by
  unfold dropTrail at h ⊢
  rw [List.head?_reverse]
  have hne : l.reverse.dropWhile p ≠ [] := by
    intro he
    rw [he] at h
    simp at h
  rw [getLast?_dropWhile p l.reverse hne, List.getLast?_reverse]

theorem trimL_ne_nil_of_mem {l : List Char} {c : Char}
    (hm : c ∈ l) (hc : wsChar c = false) : trimL l ≠ [] := by
  unfold trimL
  have h1 : c ∈ l.dropWhile wsChar := mem_dropWhile_of_neg wsChar hm hc
  have h2 : c ∈ dropTrail wsChar (l.dropWhile wsChar) := mem_dropTrail_of_neg wsChar h1 hc
  intro he
  rw [he] at h2
  simp at h2

theorem head?_trimL_neg (l : List Char) {a : Char}
    (h : (trimL l).head? = some a) : wsChar a = false := by
  unfold trimL at h
  have hne : dropTrail wsChar (l.dropWhile wsChar) ≠ [] := by
    intro he
    rw [he] at h
    simp at h
  rw [head?_dropTrail wsChar _ hne] at h
  exact head?_dropWhile_neg wsChar l h

theorem getLast?_trimL_neg (l : List Char) {a : Char}
    (h : (trimL l).getLast? = some a) : wsChar a = false :=
  getLast?_dropTrail_neg wsChar _ h

theorem trimL_eq_self {l : List Char}
    (h1 : ∀ a, l.head? = some a → wsChar a = false)
    (h2 : ∀ a, l.getLast? = some a → wsChar a = false) : trimL l = l := by
  cases l with
  | nil => rfl
  | cons b t =>
    unfold trimL
    have hb : wsChar b = false := h1 b rfl
    rw [dropWhile_eq_self_of_head wsChar (by rfl) hb]
    have hne : (b :: t) ≠ ([] : List Char) := by simp
    obtain ⟨c, hc⟩ : ∃ c, (b :: t).getLast? = some c := by
      cases hgl : (b :: t).getLast? with
      | none => rw [List.getLast?_eq_none_iff] at hgl; simp at hgl
      | some c => exact ⟨c, rfl⟩
    exact dropTrail_eq_self wsChar hc (h2 c hc)

theorem trimL_idem (l : List Char) : trimL (trimL l) = trimL l :=
  trimL_eq_self (fun _ h => head?_trimL_neg l h) (fun _ h => getLast?_trimL_neg l h)

theorem getLast?_trimL {X : List Char} {c : Char}
    (hX : X.getLast? = some c) (hc : wsChar c = false) : (trimL X).getLast? = some c := by
  unfold trimL
  have hmem : c ∈ X.dropWhile wsChar := mem_dropWhile_of_neg wsChar (mem_of_getLast?H hX) hc
  have hne : X.dropWhile wsChar ≠ [] := by
    intro he
    rw [he] at hmem
    simp at hmem
  have hgl : (X.dropWhile wsChar).getLast? = some c := by
    rw [getLast?_dropWhile wsChar X hne, hX]
  rw [dropTrail_eq_self wsChar hgl hc, hgl]

/-! Lemmas about caption formatting. -/
theorem punct_cases {c : Char} (h : punctChar c = true) : c = '.' ∨ c = '!' ∨ c = '?' := by
  simp [punctChar, Bool.or_eq_true, decide_eq_true_eq] at h
  tauto

theorem punct_not_strip {c : Char} (h : punctChar c = true) : stripChar c = false := by
  rcases punct_cases h with h | h | h <;> subst h <;> decide

theorem punct_not_ws {c : Char} (h : punctChar c = true) : wsChar c = false := by
  rcases punct_cases h with h | h | h <;> subst h <;> decide

theorem endsPunct_some {l : List Char} (h : endsPunct l = true) :
    ∃ c, l.getLast? = some c ∧ punctChar c = true := by
  unfold endsPunct at h
  cases hgl : l.getLast? with
  | none => rw [hgl] at h; simp at h
  | some c => rw [hgl] at h; exact ⟨c, rfl, h⟩

theorem endsPunct_normDesc {l : List Char}
    (h : dropTrail stripChar (trimL l) ≠ []) : endsPunct (normDesc l) = true := by
  unfold normDesc
  set d := dropTrail stripChar (trimL l) with hd
  rw [if_neg (by simpa [List.isEmpty_iff] using h)]
  by_cases hep : endsPunct d = true
  · rw [if_pos hep]; exact hep
  · rw [if_neg hep]
    unfold endsPunct
    rw [List.getLast?_concat]
    decide

theorem normDesc_ne_nil {l : List Char}
    (h : dropTrail stripChar (trimL l) ≠ []) : normDesc l ≠ [] := by
  have := endsPunct_normDesc h
  intro he
  rw [he] at this
  simp [endsPunct] at this

theorem buildCaptionCore_noNeg_data (k d : String) :
    (buildCaptionCore k d "").data =
      trimL (trimL k.data ++ ',' :: ' ' :: normDesc d.data) := by
  simp [buildCaptionCore]

theorem getLast?_core_arg (k : String) {nd : List Char} (hnd : nd ≠ []) :
    (trimL k.data ++ ',' :: ' ' :: nd).getLast? = nd.getLast? := by
  have : trimL k.data ++ ',' :: ' ' :: nd = (trimL k.data ++ [',', ' ']) ++ nd := by
    simp
  rw [this, List.getLast?_append_of_ne_nil _ hnd]

theorem core_getLast? (k d : String) {c : Char}
    (hc : (normDesc d.data).getLast? = some c) (hp : punctChar c = true) :
    (buildCaptionCore k d "").data.getLast? = some c := by
  rw [buildCaptionCore_noNeg_data]
  have hnd : normDesc d.data ≠ [] := by
    intro he
    rw [he] at hc
    simp at hc
  have hX : (trimL k.data ++ ',' :: ' ' :: normDesc d.data).getLast? = some c := by
    rw [getLast?_core_arg k hnd, hc]
  exact getLast?_trimL hX (punct_not_ws hp)

theorem core_endsPunct (k d : String)
    (h : dropTrail stripChar (trimL d.data) ≠ []) :
    endsPunct ((buildCaptionCore k d "").data) = true := by
  obtain ⟨c, hc, hp⟩ := endsPunct_some (endsPunct_normDesc h)
  have := core_getLast? k d hc hp
  unfold endsPunct
  rw [this]
  exact hp

theorem core_trimL_fix (k d : String) :
    trimL ((buildCaptionCore k d "").data) = (buildCaptionCore k d "").data := by
  rw [buildCaptionCore_noNeg_data]
  exact trimL_idem _

theorem normDesc_fix {l : List Char} (ht : trimL l = l) (hp : endsPunct l = true) :
    normDesc l = l := by
  obtain ⟨c, hc, hpc⟩ := endsPunct_some hp
  have hds : dropTrail stripChar l = l := dropTrail_eq_self stripChar hc (punct_not_strip hpc)
  unfold normDesc
  rw [ht, hds]
  have hne : l ≠ [] := by
    intro he
    rw [he] at hc
    simp at hc
  rw [if_neg (by simpa [List.isEmpty_iff] using hne), if_pos hp]

theorem buildCaptionCore_ne_nil (k d n : String) : (buildCaptionCore k d n).data ≠ [] := by
  unfold buildCaptionCore
  apply trimL_ne_nil_of_mem (c := ',')
  · exact List.mem_append_left _ (List.mem_append_right _ (List.mem_cons_self ',' _))
  · decide

theorem data_ne_nil_imp {s : String} (h : s.data ≠ []) : s ≠ "" := by
  intro he
  subst he
  exact h rfl

theorem strCat_data (a b : String) : (strCat a b).data = a.data ++ b.data := rfl

theorem strCat_ne_nil (a b : String) (h : b.data ≠ []) : (strCat a b).data ≠ [] := by
  rw [strCat_data]
  simp [h]

theorem geminiFallback_ne_nil (kw m : String) : (geminiFallback kw m).data ≠ [] := by
  unfold geminiFallback
  split
  all_goals exact strCat_ne_nil _ _ (by decide)

theorem openAIFallback_ne_nil (kw pn m : String) : (openAIFallback kw pn m).data ≠ [] := by
  unfold openAIFallback
  split
  all_goals exact strCat_ne_nil _ _ (by decide)

theorem buildCaption_ne_nil (k d cp n : String) : (buildCaption k d cp n).data ≠ [] := by
  rw [buildCaption_eq_core]
  exact buildCaptionCore_ne_nil k d n

theorem generateCaption_ne_nil (o : CaptionOptions) (ev : GeminiEvent) :
    (generateCaption o ev).data ≠ [] := by
  cases ev with
  | respText t =>
    simp only [generateCaption]
    exact buildCaption_ne_nil _ _ _ _
  | respBlocked m =>
    simp only [generateCaption]
    split
    · exact buildCaption_ne_nil _ _ _ _
    · exact geminiFallback_ne_nil _ _
  | callFail m =>
    simp only [generateCaption]
    exact geminiFallback_ne_nil _ _

theorem generateCaptionOpenAI_ok_ne_nil (env : String → Option String) (o : CaptionOptions)
    (p m : String) (ev : OpenAIEvent) {c : String}
    (h : generateCaptionOpenAI env o p m ev = .ok c) : c.data ≠ [] := by
  unfold generateCaptionOpenAI at h
  cases hp : LLM_PROVIDERS p with
  | none => rw [hp] at h; simp at h
  | some cfg =>
    rw [hp] at h
    simp only at h
    split at h
    · simp at h
    · rw [Except.ok.injEq] at h
      subst h
      cases ev with
      | fetchFail m2 => exact openAIFallback_ne_nil _ _ _
      | httpResp ok status body content =>
        simp only
        split
        · exact openAIFallback_ne_nil _ _ _
        · split
          · exact openAIFallback_ne_nil _ _ _
          · exact buildCaption_ne_nil _ _ _ _

/-- C7: the fixed-scenario caption: keyword `foo`, raw description
`a cat sitting`, negative hints `blurry` produce exactly
`foo, a cat sitting. (neg: blurry)`, for every checkpoint value. -/
theorem c7_buildCaption_scenario (checkpoint : String) :
    buildCaption "foo" "a cat sitting" checkpoint "blurry" =
      "foo, a cat sitting. (neg: blurry)" := by
  rw [buildCaption_eq_core]
  decide

/-- C5 counterexample: `captionLength = "constructor"` is outside
`{Short, Medium, Long}`, yet the JavaScript lookup
`lengthMap["constructor"]` hits the truthy `Object` constructor inherited
from `Object.prototype`, so `|| lengthMap.Medium` is not evaluated and the
Medium instruction is not appended — the inherited value is pushed into the
length slot instead. -/
theorem c5_counterexample :
    lengthChoice "constructor" = .inheritedLengthValue "constructor" ∧
    lengthChoice "constructor" ≠ .str mediumInstruction ∧
    (promptParts ⟨"kw", "", "cp", "", "constructor", false⟩)[1]? =
      some (.inheritedLengthValue "constructor") ∧
    (promptParts ⟨"kw", "", "cp", "", "constructor", false⟩)[1]? ≠
      some (.str mediumInstruction) := by
  decide

/-- C5 amended: for every `captionLength` that is neither one of the three
table keys nor a property key inherited from `Object.prototype`, the prompt
builder places the Medium instruction in the length slot (position 1 of the
prompt parts), in the prompt construction shared by both caption
generators.  For the inherited keys (`constructor`, `toString`,
`__proto__`, …) the lookup is truthy and the Medium default is not
substituted, as the counterexample shows. -/
theorem c5_medium_default (o : CaptionOptions)
    (h1 : o.captionLength ≠ "Short") (h2 : o.captionLength ≠ "Medium")
    (h3 : o.captionLength ≠ "Long")
    (h4 : objectPrototypeKeys.contains o.captionLength = false) :
    lengthChoice o.captionLength = .str mediumInstruction ∧
      (promptParts o)[1]? = some (.str mediumInstruction) := by
  have hl : lengthChoice o.captionLength = .str mediumInstruction := by
    unfold lengthChoice lengthMapLookup
    rw [if_neg h1, if_neg h2, if_neg h3]
    exact if_neg (by simpa using h4)
  exact ⟨hl, by simp [promptParts, hl]⟩

/-- Witness for C5 at the unrecognized, non-prototype value `XL`. -/
theorem c5_witness :
    lengthChoice (CaptionOptions.mk "kw" "" "cp" "" "XL" false).captionLength =
      .str mediumInstruction ∧
    (promptParts (CaptionOptions.mk "kw" "" "cp" "" "XL" false))[1]? =
      some (.str mediumInstruction) :=
  c5_medium_default ⟨"kw", "", "cp", "", "XL", false⟩
    (by decide) (by decide) (by decide) (by decide)

/-- C4 counterexample: a message containing both a timeout trigger and
`429` is classified as REQUEST_TIMEOUT, not as the rate-limit kind, because
the timeout rule precedes the rate-limit rule. -/
theorem c4_counterexample :
    rateCondB "Request timeout with 429" = true ∧
    (fromException "Request timeout with 429" "Gemini API").code = .requestTimeout ∧
    (fromException "Request timeout with 429" "Gemini API").code ≠ .rateLimitExceeded := by
  decide

/-- C4 amended: a message containing `429` or `rate limit`
(case-insensitively) is classified as RATE_LIMIT_EXCEEDED with status 429
provided no earlier-precedence rule (API-key missing/invalid/placeholder,
timeout) matches it. -/
theorem c4_amended (msg context : String)
    (h : rateCondB msg = true)
    (h1 : akMissingB msg = false) (h2 : akInvalidB msg = false)
    (h3 : akPlaceholderB msg = false) (h4 : timeoutCondB msg = false) :
    fromException msg context = ⟨.rateLimitExceeded, "Rate limit exceeded", 429⟩ := by
  unfold fromException
  simp [h, h1, h2, h3, h4]

/-- Witness for C4 on a plain rate-limit message. -/
theorem c4_witness :
    fromException "HTTP 429 Too Many Requests" "OpenAI API" =
      ⟨.rateLimitExceeded, "Rate limit exceeded", 429⟩ :=
  c4_amended "HTTP 429 Too Many Requests" "OpenAI API"
    (by decide) (by decide) (by decide) (by decide) (by decide)

/-- C8 counterexample: with a raw description that normalises to empty, the
first call's output (`foo,`) carries no terminal punctuation, while the
second application of `buildCaption` to that output appends a period
(`foo, foo.`) — additional terminal punctuation introduced by the second
application. -/
theorem c8_counterexample :
    buildCaption "foo" "" "SDXL" "" = "foo," ∧
    endsPunct (buildCaption "foo" "" "SDXL" "").data = false ∧
    buildCaption "foo" (buildCaption "foo" "" "SDXL" "") "SDXL" "" = "foo, foo." ∧
    endsPunct (buildCaption "foo" (buildCaption "foo" "" "SDXL" "") "SDXL" "").data = true := by
  decide

/-- C8 amended: when the negative-hints argument is empty and the raw
description does not normalise to the empty string, the first output already
ends with terminal punctuation and is a fixed point of the description
normalisation, so the second application introduces no additional terminal
punctuation.  (With non-empty negative hints the first output ends with `)`
and the second application does append a period, as the counterexample's
mechanism shows.) -/
theorem c8_amended (k d cp : String) (h : dropTrail stripChar (trimL d.data) ≠ []) :
    endsPunct ((buildCaption k d cp "").data) = true ∧
    normDesc ((buildCaption k d cp "").data) = (buildCaption k d cp "").data ∧
    endsPunct ((buildCaption k (buildCaption k d cp "") cp "").data) = true := by
  simp only [buildCaption_eq_core]
  have h1 : endsPunct ((buildCaptionCore k d "").data) = true := core_endsPunct k d h
  have h2 : trimL ((buildCaptionCore k d "").data) = (buildCaptionCore k d "").data :=
    core_trimL_fix k d
  have h3 : normDesc ((buildCaptionCore k d "").data) = (buildCaptionCore k d "").data :=
    normDesc_fix h2 h1
  refine ⟨h1, h3, ?_⟩
  apply core_endsPunct
  obtain ⟨c, hc, hp⟩ := endsPunct_some h1
  rw [h2, dropTrail_eq_self stripChar hc (punct_not_strip hp)]
  intro he
  rw [he] at hc
  simp at hc

/-- Witness for C8 on a concrete non-degenerate description. -/
theorem c8_witness :
    endsPunct ((buildCaption "foo" "a cat sitting" "SDXL" "").data) = true ∧
    normDesc ((buildCaption "foo" "a cat sitting" "SDXL" "").data) =
      (buildCaption "foo" "a cat sitting" "SDXL" "").data ∧
    endsPunct ((buildCaption "foo" (buildCaption "foo" "a cat sitting" "SDXL" "") "SDXL" "").data) = true :=
  c8_amended "foo" "a cat sitting" "SDXL" (by decide)

/-- C6 counterexample: the Gemini generator does not treat an empty
extracted completion text as a failure — it builds a caption from the empty
description, yielding `foo,` instead of the generic unavailable fallback. -/
theorem c6_counterexample :
    generateCaption ⟨"foo", "", "SDXL", "", "Medium", false⟩ (.respText "") = "foo," ∧
    generateCaption ⟨"foo", "", "SDXL", "", "Medium", false⟩ (.respText "") ≠
      "foo, image description unavailable" := by
  constructor
  · rfl
  · decide

/-- C6 amended: in the OpenAI-compatible generator, an HTTP-ok response with
empty extracted completion text is treated as a failure (the
`Empty response from API` throw) and produces the generic unavailable
fallback caption; the Gemini generator lacks this check (see the
counterexample). -/
theorem c6_empty_response_openai (env : String → Option String) (o : CaptionOptions)
    (provider modelName : String) (status : Nat) (body : String) (content : Option String)
    (cfg : LLMProvider) (hp : LLM_PROVIDERS provider = some cfg)
    (hk : (cfg.requiresApiKey && !envHas env cfg.envVar) = false)
    (hc : extractRaw content = "") :
    generateCaptionOpenAI env o provider modelName (.httpResp true status body content) =
      .ok (strCat o.keyword ", image description unavailable") := by
  unfold generateCaptionOpenAI
  rw [hp]
  simp only [hk, Bool.false_eq_true, if_false, hc]
  have hfb : ∀ pn : String,
      openAIFallback o.keyword pn "Empty response from API" =
        strCat o.keyword ", image description unavailable" := by
    intro pn
    unfold openAIFallback
    rfl
  simp [hfb]

/-- Witness for C6 on the OpenAI provider with a whitespace-only completion. -/
theorem c6_witness :
    generateCaptionOpenAI (fun _ => some "key") ⟨"foo", "", "SDXL", "", "Medium", false⟩
      "openai" "gpt-4o" (.httpResp true 200 "" (some "  ")) =
      .ok (strCat "foo" ", image description unavailable") :=
  c6_empty_response_openai (fun _ => some "key") ⟨"foo", "", "SDXL", "", "Medium", false⟩
    "openai" "gpt-4o" 200 "" (some "  ")
    ⟨"openai", "OpenAI", true, "OPENAI_API_KEY", some "https://api.openai.com/v1",
      ["gpt-4-vision-preview", "gpt-4-turbo", "gpt-4o", "gpt-4o-mini"]⟩
    rfl (by decide) (by decide)

/-- C2 counterexample: the OpenAI-compatible generator raises for an unknown
provider identifier (the throw sits before its `try` block), so it is not
exception-free for every provider string. -/
theorem c2_counterexample :
    generateCaptionOpenAI (fun _ => some "key") ⟨"foo", "", "SDXL", "", "Medium", false⟩
      "notaprovider" "m" (.httpResp true 200 "" (some "a dog")) =
      .error "Unknown provider: notaprovider" := rfl

/-- C2 amended: the Gemini generator never raises (its whole body sits in
one `try`/`catch`) and always returns a non-empty caption; the
OpenAI-compatible generator never raises provided the provider identifier is
registered and its required credential is set — it raises exactly on the two
pre-`try` throws (unknown provider, missing credential). -/
theorem c2_no_throw :
    (∀ (o : CaptionOptions) (ev : GeminiEvent), generateCaption o ev ≠ "") ∧
    (∀ (env : String → Option String) (o : CaptionOptions) (provider modelName : String)
        (ev : OpenAIEvent) (cfg : LLMProvider),
      LLM_PROVIDERS provider = some cfg →
      (cfg.requiresApiKey && !envHas env cfg.envVar) = false →
      ∃ c, generateCaptionOpenAI env o provider modelName ev = .ok c ∧ c ≠ "") := by
  constructor
  · intro o ev
    exact data_ne_nil_imp (generateCaption_ne_nil o ev)
  · intro env o provider modelName ev cfg hp hk
    have hke : generateCaptionOpenAI env o provider modelName ev =
        .ok (match ev with
          | .fetchFail m => openAIFallback o.keyword cfg.name m
          | .httpResp ok status body content =>
            if !ok then
              openAIFallback o.keyword cfg.name
                (strCat "API request failed: " (strCat (Nat.repr status) (strCat " - " body)))
            else
              if extractRaw content = "" then openAIFallback o.keyword cfg.name "Empty response from API"
              else buildCaption o.keyword (extractRaw content) o.checkpoint o.negativeHints) := by
      unfold generateCaptionOpenAI
      rw [hp]
      simp only [hk, Bool.false_eq_true, if_false]
    exact ⟨_, hke, data_ne_nil_imp (generateCaptionOpenAI_ok_ne_nil env o provider modelName ev hke)⟩

/-- Witness for C2 at a failing Gemini call and a configured OpenAI call. -/
theorem c2_witness :
    generateCaption ⟨"foo", "", "SDXL", "", "Medium", false⟩ (.callFail "boom") ≠ "" ∧
    (∃ c, generateCaptionOpenAI (fun _ => some "key") ⟨"foo", "", "SDXL", "", "Medium", false⟩
        "openai" "gpt-4o" (.fetchFail "boom") = .ok c ∧ c ≠ "") :=
  ⟨c2_no_throw.1 ⟨"foo", "", "SDXL", "", "Medium", false⟩ (.callFail "boom"),
   c2_no_throw.2 (fun _ => some "key") ⟨"foo", "", "SDXL", "", "Medium", false⟩
     "openai" "gpt-4o" (.fetchFail "boom")
     ⟨"openai", "OpenAI", true, "OPENAI_API_KEY", some "https://api.openai.com/v1",
       ["gpt-4-vision-preview", "gpt-4-turbo", "gpt-4o", "gpt-4o-mini"]⟩
     rfl (by decide)⟩

/-! Lemmas about path rendering and prefix containment. -/
theorem isPrefixL_length : ∀ (a b : List Char), isPrefixL a b = true → a.length ≤ b.length := by
  intro a
  induction a with
  | nil => intro b _; simp
  | cons x xs ih =>
    intro b h
    cases b with
    | nil => simp [isPrefixL] at h
    | cons y ys =>
      simp only [isPrefixL, Bool.and_eq_true] at h
      simpa using ih ys h.2

theorem isPrefixL_append : ∀ (a t : List Char), isPrefixL a (a ++ t) = true := by
  intro a t
  induction a with
  | nil => rfl
  | cons x xs ih => simp [isPrefixL, ih]

theorem isPrefixL_refl (a : List Char) : isPrefixL a a = true := by
  have := isPrefixL_append a []
  simpa using this

theorem data_eq_nil_imp {s : String} (h : s.data = []) : s = "" := by
  cases s
  simp at h
  simp [h]

theorem renderL_ne_nil_eq (segs : List String) (h : segs ≠ []) :
    renderL segs = segs.foldl (fun acc s => acc ++ '/' :: s.data) [] := by
  cases segs with
  | nil => exact absurd rfl h
  | cons a t => rfl

theorem renderL_concat (d : List String) (l : String) :
    renderL (d ++ [l]) = d.foldl (fun acc s => acc ++ '/' :: s.data) [] ++ '/' :: l.data := by
  rw [renderL_ne_nil_eq _ (by simp), List.foldl_append]
  rfl

theorem renderL_dropLast_lt (base : List String) (hb : base ≠ [])
    (hs : ∀ s ∈ base, s ≠ "") :
    (renderL base.dropLast).length < (renderL base).length := by
  have hdecomp : base.dropLast ++ [base.getLast hb] = base := List.dropLast_append_getLast hb
  have hlast : (base.getLast hb).data ≠ [] := by
    intro h
    exact hs _ (List.getLast_mem hb) (data_eq_nil_imp h)
  have hlen : 1 ≤ (base.getLast hb).data.length := by
    cases hd : (base.getLast hb).data with
    | nil => exact absurd hd hlast
    | cons c t => simp
  have hlenbase : (renderL base).length =
      (base.dropLast.foldl (fun acc s => acc ++ '/' :: s.data) []).length + 1 +
        (base.getLast hb).data.length := by
    have hrender : renderL base =
        base.dropLast.foldl (fun acc s => acc ++ '/' :: s.data) [] ++
          '/' :: (base.getLast hb).data := by
      conv_lhs => rw [← hdecomp]
      exact renderL_concat _ _
    rw [hrender, List.length_append, List.length_cons]
    omega
  have hle : (renderL base.dropLast).length ≤
      (base.dropLast.foldl (fun acc s => acc ++ '/' :: s.data) []).length + 1 := by
    cases hd : base.dropLast with
    | nil => simp [renderL]
    | cons a t =>
      rw [renderL_ne_nil_eq _ (by simp)]
      omega
  omega

/-- C3 counterexample: the store does not raise for the filename
`../../etc/passwd` — `validatePath` reduces it to its basename `passwd`
(inside the base directory) and the write loop of `setUploadedImages`
performs a filesystem write to `uploads/passwd`. -/
theorem c3_counterexample :
    validatePath ["home", "user", "uploads"] "../../etc/passwd" =
      .ok ["home", "user", "uploads", "passwd"] ∧
    setUploadedImagesRun ["home", "user", "uploads"] [("../../etc/passwd", 7)] =
      ([(["home", "user", "uploads", "passwd"], 7)], none) := by
  exact ⟨rfl, rfl⟩

/-- C3 amended: for a base directory with at least one non-empty segment,
`validatePath` raises the directory-traversal error exactly when the
filename's basename is `..`; every other filename is sanitised to its
basename and the returned path stays inside the base directory (the resolved
path string starts with the resolved base string), so no filesystem access
ever escapes the base — traversal arguments are neutralised by sanitisation
rather than rejection. -/
theorem c3_validatePath_spec (base : List String) (fn : String)
    (hb : base ≠ []) (hs : ∀ s ∈ base, s ≠ "") :
    (basenameS fn = ".." →
      validatePath base fn = .error "Invalid file path: directory traversal detected") ∧
    (basenameS fn ≠ ".." →
      validatePath base fn = .ok (joinSegs base (basenameS fn)) ∧
      isPrefixL (renderL base) (renderL (joinSegs base (basenameS fn))) = true) := by
  constructor
  · intro hdd
    unfold validatePath
    rw [hdd]
    have hjoin : joinSegs base ".." = base.dropLast := by
      unfold joinSegs
      rw [if_neg (by decide), if_pos rfl]
    rw [hjoin]
    have hlt := renderL_dropLast_lt base hb hs
    have hfalse : isPrefixL (renderL base) (renderL base.dropLast) = false := by
      cases hp : isPrefixL (renderL base) (renderL base.dropLast) with
      | false => rfl
      | true =>
        have := isPrefixL_length _ _ hp
        omega
    rw [hfalse]
    simp
  · intro hne
    have hpre : isPrefixL (renderL base) (renderL (joinSegs base (basenameS fn))) = true := by
      unfold joinSegs
      by_cases h0 : (basenameS fn = "" || basenameS fn = ".") = true
      · rw [if_pos h0]
        exact isPrefixL_refl _
      · rw [if_neg h0, if_neg hne]
        rw [renderL_concat, ← renderL_ne_nil_eq base hb]
        exact isPrefixL_append _ _
    constructor
    · unfold validatePath
      rw [hpre]
      simp
    · exact hpre

/-- Witness for C3: the traversal filename `..` is rejected, while
`../../etc/passwd` (basename `passwd`) is sanitised and kept inside the base
directory. -/
theorem c3_witness :
    validatePath ["home", "user", "uploads"] ".." =
      .error "Invalid file path: directory traversal detected" ∧
    (validatePath ["home", "user", "uploads"] "../../etc/passwd" =
      .ok (joinSegs ["home", "user", "uploads"] (basenameS "../../etc/passwd")) ∧
     isPrefixL (renderL ["home", "user", "uploads"])
       (renderL (joinSegs ["home", "user", "uploads"] (basenameS "../../etc/passwd"))) = true) :=
  ⟨(c3_validatePath_spec ["home", "user", "uploads"] ".." (by decide) (by decide)).1 (by decide),
   (c3_validatePath_spec ["home", "user", "uploads"] "../../etc/passwd"
     (by decide) (by decide)).2 (by decide)⟩

/-! Lemmas about the batch loop and archive. -/
theorem processLoop_length_tally (prefixStr keyword : String)
    (gen : Nat → Except String String) :
    ∀ (images : List (String × Nat)) (idx : Nat),
      (processLoop prefixStr keyword gen images idx).1.length = images.length ∧
      (processLoop prefixStr keyword gen images idx).2.1 +
        (processLoop prefixStr keyword gen images idx).2.2 = images.length := by
  intro images
  induction images with
  | nil => intro idx; simp [processLoop]
  | cons hd tl ih =>
    intro idx
    obtain ⟨fn, img⟩ := hd
    have htl := ih (idx + 1)
    simp only [processLoop]
    cases hps : processStep prefixStr keyword idx img (gen idx) with
    | mk r isErr =>
      cases hpl : processLoop prefixStr keyword gen tl (idx + 1) with
      | mk rs se =>
        obtain ⟨s, e⟩ := se
        rw [hpl] at htl
        simp only at htl
        cases isErr with
        | true => simp; omega
        | false => simp; omega

theorem processLoop_caption_ne_nil (prefixStr keyword : String)
    (gen : Nat → Except String String)
    (hgen : ∀ i c, gen i = .ok c → c.data ≠ []) :
    ∀ (images : List (String × Nat)) (idx : Nat),
      ∀ r ∈ (processLoop prefixStr keyword gen images idx).1, r.caption.data ≠ [] := by
  intro images
  induction images with
  | nil => intro idx r hr; simp [processLoop] at hr
  | cons hd tl ih =>
    intro idx r hr
    obtain ⟨fn, img⟩ := hd
    simp only [processLoop] at hr
    cases hps : processStep prefixStr keyword idx img (gen idx) with
    | mk r0 isErr =>
      rw [hps] at hr
      cases hpl : processLoop prefixStr keyword gen tl (idx + 1) with
      | mk rs se =>
        rw [hpl] at hr
        simp only [List.mem_cons] at hr
        rcases hr with hr | hr
        · subst hr
          unfold processStep at hps
          cases hgi : gen idx with
          | ok c =>
            rw [hgi] at hps
            simp only [Prod.mk.injEq] at hps
            rw [← hps.1]
            exact hgen idx c hgi
          | error m =>
            rw [hgi] at hps
            simp only [Prod.mk.injEq] at hps
            rw [← hps.1]
            exact strCat_ne_nil _ _ (by decide)
        · have := ih (idx + 1) r
          rw [hpl] at this
          exact this hr

theorem archiveEntriesOf_length (rs : List PResult) :
    (archiveEntriesOf rs).length = 2 * rs.length := by
  induction rs with
  | nil => rfl
  | cons r tl ih =>
    simp only [archiveEntriesOf, List.flatMap_cons] at ih ⊢
    simp [ih]
    omega

theorem countImages_archive (rs : List PResult) :
    countImages (archiveEntriesOf rs) = rs.length := by
  induction rs with
  | nil => rfl
  | cons r tl ih =>
    simp only [archiveEntriesOf, countImages, List.flatMap_cons, List.filter_append] at ih ⊢
    simp [ih]

theorem countTexts_archive (rs : List PResult) :
    countTexts (archiveEntriesOf rs) = rs.length := by
  induction rs with
  | nil => rfl
  | cons r tl ih =>
    simp only [archiveEntriesOf, countTexts, List.flatMap_cons, List.filter_append] at ih ⊢
    simp [ih]

theorem archive_mem_pair {rs : List PResult} {r : PResult} (hr : r ∈ rs) :
    (⟨r.filename, .image r.imageData⟩ : ArchiveEntry) ∈ archiveEntriesOf rs ∧
    (⟨txtName r.filename, .text r.caption⟩ : ArchiveEntry) ∈ archiveEntriesOf rs := by
  constructor
  · exact List.mem_flatMap.mpr ⟨r, hr, by simp⟩
  · exact List.mem_flatMap.mpr ⟨r, hr, by simp⟩

/-- C10: every image is tallied exactly once (success or error), so at the
end of a run `successCount + errorCount` equals the number of uploaded
images, and the `count` field of the JSON response also equals it. -/
theorem c10_tally_invariant (env : String → Option String)
    (provider modelName prefixStr : String) (o : CaptionOptions)
    (images : List (String × Nat)) (gev : Nat → GeminiEvent) (oev : Nat → OpenAIEvent) :
    (processPOSTrun env provider modelName prefixStr o images gev oev).successCount +
      (processPOSTrun env provider modelName prefixStr o images gev oev).errorCount =
        images.length ∧
    (processPOSTrun env provider modelName prefixStr o images gev oev).count =
      images.length := by
  have h := processLoop_length_tally prefixStr o.keyword
    (processGen env provider modelName o gev oev) images 1
  exact ⟨h.2, h.1⟩

theorem processGen_ok_ne_nil (env : String → Option String)
    (provider modelName : String) (o : CaptionOptions)
    (gev : Nat → GeminiEvent) (oev : Nat → OpenAIEvent) :
    ∀ i c, processGen env provider modelName o gev oev i = .ok c → c.data ≠ [] := by
  intro i c h
  unfold processGen at h
  split at h
  · rw [Except.ok.injEq] at h
    rw [← h]
    exact generateCaption_ne_nil o (gev i)
  · exact generateCaptionOpenAI_ok_ne_nil env o provider modelName (oev i) h

/-- C1: for 1 ≤ N ≤ 100 uploaded images, processing then exporting yields
exactly N image entries, each paired with its caption text entry, with every
caption non-empty — for every pattern of provider behaviour, including runs
where every provider call fails (the event streams are universally
quantified, so all-failing streams are covered). -/
theorem c1_roundtrip (env : String → Option String)
    (provider modelName prefixStr : String) (o : CaptionOptions)
    (images : List (String × Nat)) (gev : Nat → GeminiEvent) (oev : Nat → OpenAIEvent)
    (h1 : 1 ≤ images.length) (h2 : images.length ≤ 100) :
    (processedOf env provider modelName prefixStr o images gev oev).length = images.length ∧
    (∀ r ∈ processedOf env provider modelName prefixStr o images gev oev, r.caption ≠ "") ∧
    downloadGET (processedOf env provider modelName prefixStr o images gev oev) =
      .ok (archiveEntriesOf (processedOf env provider modelName prefixStr o images gev oev)) ∧
    countImages (archiveEntriesOf (processedOf env provider modelName prefixStr o images gev oev)) =
      images.length ∧
    countTexts (archiveEntriesOf (processedOf env provider modelName prefixStr o images gev oev)) =
      images.length ∧
    (archiveEntriesOf (processedOf env provider modelName prefixStr o images gev oev)).length =
      2 * images.length ∧
    ∀ r ∈ processedOf env provider modelName prefixStr o images gev oev,
      (⟨r.filename, .image r.imageData⟩ : ArchiveEntry) ∈
        archiveEntriesOf (processedOf env provider modelName prefixStr o images gev oev) ∧
      (⟨txtName r.filename, .text r.caption⟩ : ArchiveEntry) ∈
        archiveEntriesOf (processedOf env provider modelName prefixStr o images gev oev) := by
  have hlen : (processedOf env provider modelName prefixStr o images gev oev).length =
      images.length :=
    (processLoop_length_tally prefixStr o.keyword
      (processGen env provider modelName o gev oev) images 1).1
  have hcap : ∀ r ∈ processedOf env provider modelName prefixStr o images gev oev,
      r.caption ≠ "" := by
    intro r hr
    exact data_ne_nil_imp
      (processLoop_caption_ne_nil prefixStr o.keyword
        (processGen env provider modelName o gev oev)
        (processGen_ok_ne_nil env provider modelName o gev oev) images 1 r hr)
  refine ⟨hlen, hcap, ?_, ?_, ?_, ?_, ?_⟩
  · unfold downloadGET
    rw [if_neg (by omega)]
  · rw [countImages_archive, hlen]
  · rw [countTexts_archive, hlen]
  · rw [archiveEntriesOf_length, hlen]
  · intro r hr
    exact archive_mem_pair hr

/-- Witness for C1: one image, a failing Gemini call stream (every provider
call fails), and the full conclusion at that instance. -/
theorem c1_witness :
    (processedOf (fun _ => none) "gemini" "m" "img" ⟨"foo", "", "SDXL", "", "Medium", false⟩
        [("a.png", 5)] (fun _ => .callFail "boom") (fun _ => .fetchFail "boom")).length = 1 ∧
    (∀ r ∈ processedOf (fun _ => none) "gemini" "m" "img" ⟨"foo", "", "SDXL", "", "Medium", false⟩
        [("a.png", 5)] (fun _ => .callFail "boom") (fun _ => .fetchFail "boom"), r.caption ≠ "") ∧
    downloadGET (processedOf (fun _ => none) "gemini" "m" "img"
        ⟨"foo", "", "SDXL", "", "Medium", false⟩
        [("a.png", 5)] (fun _ => .callFail "boom") (fun _ => .fetchFail "boom")) =
      .ok (archiveEntriesOf (processedOf (fun _ => none) "gemini" "m" "img"
        ⟨"foo", "", "SDXL", "", "Medium", false⟩
        [("a.png", 5)] (fun _ => .callFail "boom") (fun _ => .fetchFail "boom"))) ∧
    countImages (archiveEntriesOf (processedOf (fun _ => none) "gemini" "m" "img"
        ⟨"foo", "", "SDXL", "", "Medium", false⟩
        [("a.png", 5)] (fun _ => .callFail "boom") (fun _ => .fetchFail "boom"))) = 1 ∧
    countTexts (archiveEntriesOf (processedOf (fun _ => none) "gemini" "m" "img"
        ⟨"foo", "", "SDXL", "", "Medium", false⟩
        [("a.png", 5)] (fun _ => .callFail "boom") (fun _ => .fetchFail "boom"))) = 1 ∧
    (archiveEntriesOf (processedOf (fun _ => none) "gemini" "m" "img"
        ⟨"foo", "", "SDXL", "", "Medium", false⟩
        [("a.png", 5)] (fun _ => .callFail "boom") (fun _ => .fetchFail "boom"))).length = 2 * 1 ∧
    ∀ r ∈ processedOf (fun _ => none) "gemini" "m" "img"
        ⟨"foo", "", "SDXL", "", "Medium", false⟩
        [("a.png", 5)] (fun _ => .callFail "boom") (fun _ => .fetchFail "boom"),
      (⟨r.filename, .image r.imageData⟩ : ArchiveEntry) ∈
        archiveEntriesOf (processedOf (fun _ => none) "gemini" "m" "img"
          ⟨"foo", "", "SDXL", "", "Medium", false⟩
          [("a.png", 5)] (fun _ => .callFail "boom") (fun _ => .fetchFail "boom")) ∧
      (⟨txtName r.filename, .text r.caption⟩ : ArchiveEntry) ∈
        archiveEntriesOf (processedOf (fun _ => none) "gemini" "m" "img"
          ⟨"foo", "", "SDXL", "", "Medium", false⟩
          [("a.png", 5)] (fun _ => .callFail "boom") (fun _ => .fetchFail "boom")) :=
  c1_roundtrip (fun _ => none) "gemini" "m" "img" ⟨"foo", "", "SDXL", "", "Medium", false⟩
    [("a.png", 5)] (fun _ => .callFail "boom") (fun _ => .fetchFail "boom")
    (by decide) (by decide)

/-! Lemmas about the upload route. -/
theorem setKey_length_ge (m : List (String × Nat)) (k : String) (v : Nat) :
    m.length ≤ (setKey m k v).length := by
  unfold setKey
  split
  · rw [List.length_map]
  · simp

theorem buildUploadMap_ok :
    ∀ (files : List UploadFile) (m : List (String × Nat)),
      (∀ f ∈ files, validFile f = true) →
      ∃ m', buildUploadMap files m = .ok m' ∧ m.length ≤ m'.length := by
  intro files
  induction files with
  | nil => exact fun m _ => ⟨m, rfl, Nat.le_refl _⟩
  | cons f rest ih =>
    intro m h
    have hf := h f (List.mem_cons_self f rest)
    simp only [validFile, Bool.and_eq_true, decide_eq_true_eq] at hf
    obtain ⟨⟨hf1, hf2⟩, hf3⟩ := hf
    obtain ⟨m', hm', hle⟩ :=
      ih (setKey m (chooseKey m (sanitizedName f.name)) f.content)
        (fun g hg => h g (List.mem_cons_of_mem _ hg))
    refine ⟨m', ?_, Nat.le_trans (setKey_length_ge m _ _) hle⟩
    simp only [buildUploadMap, hf1, hf3, Bool.not_true, Bool.false_eq_true, if_false]
    rw [if_neg (by omega)]
    exact hm'

/-- C9: a batch at the maximum file count (100 valid files) is accepted,
while any batch of 101 or more files is rejected with `TOO_MANY_FILES`
(status 400) with the store left completely unchanged (the response pair
carries the original store state). -/
theorem c9_upload_boundary (files : List UploadFile) (st : StoreState) :
    (files.length = 100 → (∀ f ∈ files, validFile f = true) →
      (uploadPOST files st).1.isSuccess = true) ∧
    (101 ≤ files.length →
      uploadPOST files st = (.errorResp .tooManyFiles 400, st)) := by
  constructor
  · intro hlen hval
    unfold uploadPOST
    rw [if_neg (by omega), if_neg (by simp only [maxFiles]; omega)]
    cases files with
    | nil => simp at hlen
    | cons f rest =>
      have hf := hval f (List.mem_cons_self f rest)
      simp only [validFile, Bool.and_eq_true, decide_eq_true_eq] at hf
      obtain ⟨⟨hf1, hf2⟩, hf3⟩ := hf
      have hm1 : buildUploadMap (f :: rest) [] =
          buildUploadMap rest [(sanitizedName f.name, f.content)] := by
        simp only [buildUploadMap, hf1, hf3, Bool.not_true, Bool.false_eq_true, if_false]
        rw [if_neg (by omega)]
        rfl
      obtain ⟨m', hm', hle⟩ :=
        buildUploadMap_ok rest [(sanitizedName f.name, f.content)]
          (fun g hg => hval g (List.mem_cons_of_mem _ hg))
      rw [hm1, hm']
      simp only
      rw [if_neg (by simp at hle; omega)]
      rfl
  · intro h101
    unfold uploadPOST
    rw [if_neg (by omega), if_pos (by simp only [maxFiles]; omega)]

/-- Witness for C9: 100 distinct valid files are accepted; 101 files are
rejected with the store untouched. -/
theorem c9_witness :
    (uploadPOST files100 ⟨[], [], []⟩).1.isSuccess = true ∧
    uploadPOST files101 ⟨[], [], []⟩ = (.errorResp .tooManyFiles 400, ⟨[], [], []⟩) :=
  ⟨(c9_upload_boundary files100 ⟨[], [], []⟩).1 (by decide) (by decide),
   (c9_upload_boundary files101 ⟨[], [], []⟩).2 (by decide)⟩
